import Mathlib

/-!
# vkray samples: camera, input handling, frame loop and entry point

A verification development for `samples/05_gltf_scene/05_gltf_scene.cpp` and
`samples/hello_triangle.cpp`.

Floating-point scalars are modelled as exact rationals.  The glm functions whose
results involve transcendental arithmetic (`radians`, `rotate`, `lookAt`,
`perspective`) and `inverse` are taken as a parameter `Glm`; the vkray
collaborators (`Window`, `SwapChain`, `Buffer`, `ShaderManager`,
`DescriptorSets`) are modelled by the calls the samples make on them, recorded
in order in a call trace, and by the one piece of data the frame loop moves
through them (the contents of the uniform buffer).
-/

namespace Vkray

/-! ## glm value types -/

/-- The type glm::vec2. -/
structure Vec2 where
  x : ℚ
  y : ℚ
deriving DecidableEq

/-- The type glm::vec3. -/
structure Vec3 where
  x : ℚ
  y : ℚ
  z : ℚ
deriving DecidableEq

/-- The type glm::vec4. -/
structure Vec4 where
  x : ℚ
  y : ℚ
  z : ℚ
  w : ℚ
deriving DecidableEq

/-- The type glm::mat4, column-major as in glm: `c0 .. c3` are the four columns. -/
structure Mat4 where
  c0 : Vec4
  c1 : Vec4
  c2 : Vec4
  c3 : Vec4
deriving DecidableEq

/-- The conversion `glm::vec3(v)` of a vec4: the first three components. -/
def Vec4.xyz (v : Vec4) : Vec3 := ⟨v.x, v.y, v.z⟩

/-- Componentwise sum of two vec4. -/
def Vec4.add (a b : Vec4) : Vec4 := ⟨a.x + b.x, a.y + b.y, a.z + b.z, a.w + b.w⟩

/-- A vec4 scaled by a scalar. -/
def Vec4.smul (v : Vec4) (k : ℚ) : Vec4 := ⟨v.x * k, v.y * k, v.z * k, v.w * k⟩

/-- The product `m * v` of a mat4 and a vec4: the combination of the columns of `m`
weighted by the components of `v`. -/
def Mat4.mulVec (m : Mat4) (v : Vec4) : Vec4 :=
  (((m.c0.smul v.x).add (m.c1.smul v.y)).add (m.c2.smul v.z)).add (m.c3.smul v.w)

/-- The product `a * b` of two mat4: column `j` is `a * (column j of b)`. -/
def Mat4.mul (a b : Mat4) : Mat4 :=
  ⟨a.mulVec b.c0, a.mulVec b.c1, a.mulVec b.c2, a.mulVec b.c3⟩

/-- The glm functions used by the camera that are not rational arithmetic, as a
parameter of the model. -/
structure Glm where
  /-- The function glm::radians. -/
  radians : ℚ → ℚ
  /-- The function glm::rotate(angle, axis). -/
  rotate : ℚ → Vec3 → Mat4
  /-- The function glm::lookAt(eye, center, up). -/
  lookAt : Vec3 → Vec3 → Vec3 → Mat4
  /-- The function glm::perspective(fovy, aspect, zNear, zFar). -/
  perspective : ℚ → ℚ → ℚ → ℚ → Mat4
  /-- The function glm::inverse on mat4. -/
  inverse : Mat4 → Mat4

/-- The function std::clamp(v, lo, hi): `(v < lo) ? lo : (hi < v) ? hi : v`. -/
def clamp (v lo hi : ℚ) : ℚ :=
  if v < lo then lo else if hi < v then hi else v

/-! ## Camera -/

/-- The struct UniformData. -/
structure UniformData where
  model : Mat4
  invView : Mat4
  invProj : Mat4
deriving DecidableEq

/-- The struct Camera. -/
structure Camera where
  phi : ℚ
  theta : ℚ
  fov : ℚ
  aspect : ℚ
  znear : ℚ
  zfar : ℚ
  pos : Vec4
  target : Vec3
  up : Vec3
  invView : Mat4
  invProj : Mat4
deriving DecidableEq

/-- The constructor Camera::Camera(): the member initialisers, then the two matrices
computed from them. -/
def Camera.ctor (G : Glm) : Camera :=
  { phi := 0
    theta := 0
    fov := 45
    aspect := 4 / 3
    znear := 1 / 1000
    zfar := 1000
    pos := ⟨0, 0, 3, 1⟩
    target := ⟨0, 0, 0⟩
    up := ⟨0, 1, 0⟩
    invView := G.inverse (G.lookAt (Vec4.xyz ⟨0, 0, 3, 1⟩) ⟨0, 0, 0⟩ ⟨0, 1, 0⟩)
    invProj := G.inverse (G.perspective (G.radians 45) (4 / 3) (1 / 1000) 1000) }

/-- The method Camera::update(dx, dy). -/
def Camera.update (G : Glm) (c : Camera) (dx dy : ℚ) : Camera :=
  let phi := c.phi - dx
  let theta := clamp (c.theta + dy) (-89) 89
  let rotX := G.rotate (G.radians theta) ⟨1, 0, 0⟩
  let rotY := G.rotate (G.radians phi) ⟨0, 1, 0⟩
  { c with
    phi := phi
    theta := theta
    invView := G.inverse (G.lookAt (Vec4.xyz ((rotY.mul rotX).mulVec c.pos)) c.target c.up)
    invProj := G.inverse (G.perspective (G.radians c.fov) c.aspect c.znear c.zfar) }

/-- A sequence of calls of Camera::update, one per pair `(dx, dy)`, in order. -/
def Camera.updates (G : Glm) (c : Camera) (ds : List (ℚ × ℚ)) : Camera :=
  ds.foldl (fun cam d => cam.update G d.1 d.2) c

/-! ## Calls on the vkray collaborators -/

/-- The shader stages the samples name (vk::ShaderStageFlagBits). -/
inductive ShaderStage where
  | eRaygenKHR
  | eMissKHR
  | eClosestHitKHR
deriving DecidableEq

/-- The shader group types the samples name (vk::RayTracingShaderGroupTypeKHR). -/
inductive GroupType where
  | eGeneral
  | eTrianglesHitGroup
deriving DecidableEq

/-- The descriptor types the samples name (vk::DescriptorType). -/
inductive DescriptorType where
  | eAccelerationStructureKHR
  | eStorageImage
  | eStorageBuffer
  | eCombinedImageSampler
  | eUniformBuffer
deriving DecidableEq

/-- The objects whose descriptor payloads are handed to addWriteInfo. -/
inductive Resource where
  | tlas
  | storageImage
  | vertexBuffer
  | indexBuffer
  | texture
  | ubo
deriving DecidableEq

/-- One call made by Application::run on a vkray collaborator, with the arguments
written at the call site. -/
inductive Call where
  | createWindow (title : String) (width height : ℕ)
  | createInstance
  | createDevice
  | createSwapChain
  | createStorageImage
  | loadFromFile (path : String)
  | createBLAS
  | createTLAS
  | createBuffer
  | bufferCopy
  | createShaderManager
  | addShader (path : String) (stage : ShaderStage) (entry : String) (groupType : GroupType)
  | createDescriptorSets (numSets : ℕ)
  | addBindging (set index : ℕ) (type : DescriptorType) (count : ℕ) (stage : ShaderStage)
  | initPipelineLayout
  | allocate
  | addWriteInfo (set index : ℕ) (resource : Resource)
  | update
  | createRayTracingPipeline (maxRecursionDepth : ℕ)
  | initShaderBindingTable (a b c : ℕ)
  | initDrawCommandBuffers
  | pollEvents
  | draw
  | waitIdle
deriving DecidableEq

/-- An input event delivered by the window to one of the two registered callbacks.
A mouse-button event carries the position that `window->getCursorPos()` returns
while the callback runs. -/
inductive Event where
  | cursorPosition (xpos ypos : ℚ)
  | mouseButton (button action mods : ℤ) (cursor : Vec2)
deriving DecidableEq

/-! ## Application (glTF sample) -/

/-- The members of class Application that the sample reads or writes, the contents
of the uniform buffer behind `ubo` (`none` until the buffer is created), the
uniform-buffer contents each draw consumed, and the trace of collaborator calls. -/
structure Application where
  frame : ℕ
  uniformData : UniformData
  ubo : Option UniformData
  lastCursorPos : Vec2
  nowPressed : Bool
  camera : Camera
  presented : List (Option UniformData)
  trace : List Call
deriving DecidableEq

/-- A default-constructed Application: `frame` 0, `nowPressed` false, a
default-constructed camera; `lastCursorPos` and `uniformData` have no initialiser
and are given by `p0` and `u0`. -/
def Application.ctor (G : Glm) (p0 : Vec2) (u0 : UniformData) : Application :=
  { frame := 0
    uniformData := u0
    ubo := none
    lastCursorPos := p0
    nowPressed := false
    camera := Camera.ctor G
    presented := []
    trace := [] }

/-- Record a straight-line sequence of collaborator calls. -/
def Application.calls (app : Application) (cs : List Call) : Application :=
  { app with trace := app.trace ++ cs }

/-- The method Application::onCursorPosition(xpos, ypos). -/
def Application.onCursorPosition (G : Glm) (app : Application) (xpos ypos : ℚ) :
    Application :=
  if app.nowPressed then
    { app with
      camera := app.camera.update G (xpos - app.lastCursorPos.x) (ypos - app.lastCursorPos.y)
      lastCursorPos := ⟨xpos, ypos⟩ }
  else app

/-- The method Application::onMouseButton(button, action, mods); `getCursorPos` is
the value of `window->getCursorPos()`. -/
def Application.onMouseButton (app : Application) (getCursorPos : Vec2)
    (button action _mods : ℤ) : Application :=
  if button = 0 then
    { app with
      nowPressed := decide (action ≠ 0)
      lastCursorPos := getCursorPos }
  else app

/-- The two callbacks registered on the window in Application::run: each event goes
to its handler. -/
def Application.dispatch (G : Glm) (app : Application) : Event → Application
  | .cursorPosition xpos ypos => app.onCursorPosition G xpos ypos
  | .mouseButton button action mods cursor => app.onMouseButton cursor button action mods

/-- A sequence of events handled in order. -/
def Application.handle (G : Glm) (app : Application) (evs : List Event) : Application :=
  evs.foldl (Application.dispatch G) app

/-- Modelled from the spec: Buffer::copy(data), the host-to-device upload of vkray's
Buffer, whose code is not among the sources; the bytes read back are the bytes
written. On a buffer that was never created nothing is stored. -/
def Application.bufferCopy (app : Application) (data : UniformData) : Application :=
  { app with
    ubo := app.ubo.map (fun _ => data)
    trace := app.trace ++ [Call.bufferCopy] }

/-- The method Application::updateUniformBuffer(). -/
def Application.updateUniformBuffer (app : Application) : Application :=
  let uniformData : UniformData :=
    { app.uniformData with invView := app.camera.invView, invProj := app.camera.invProj }
  ({ app with uniformData := uniformData }).bufferCopy uniformData

/-- The method Application::createUniformBuffer(): the buffer is created holding
`uniformData`, then updateUniformBuffer runs. -/
def Application.createUniformBuffer (app : Application) : Application :=
  ({ app with
     ubo := some app.uniformData
     trace := app.trace ++ [Call.createBuffer] }).updateUniformBuffer

/-- Modelled from the spec: Window::pollEvents(), non-blocking polling of vkray's
Window, whose code is not among the sources; the pending events `evs` are delivered
to the registered callbacks in order. -/
def Application.pollEvents (G : Glm) (app : Application) (evs : List Event) : Application :=
  (app.calls [Call.pollEvents]).handle G evs

/-- Modelled from the spec: SwapChain::draw(), submit and present one frame, of
vkray's SwapChain, whose code is not among the sources; the ray-trace dispatch it
issues consumes the uniform buffer as it stands at the call. -/
def Application.draw (app : Application) : Application :=
  { app with
    presented := app.presented ++ [app.ubo]
    trace := app.trace ++ [Call.draw] }

/-- The collaborator calls of Application::run from the creation of the window to
the creation of the TLAS (lines 97 to 133), in order. -/
def sceneCalls : List Call :=
  [ Call.createWindow "vkray" 800 600
  , Call.createInstance
  , Call.createDevice
  , Call.createSwapChain
  , Call.createStorageImage
  , Call.loadFromFile "samples/assets/DamagedHelmet/DamagedHelmet.gltf"
  , Call.createBLAS
  , Call.createTLAS ]

/-- The collaborator calls of Application::run from the loading of the shaders to
initDrawCommandBuffers (lines 137 to 170), in order, with the arguments written at
each call site. -/
def pipelineCalls : List Call :=
  [ Call.createShaderManager
  , Call.addShader "samples/99_tmp/raygen.rgen.spv" .eRaygenKHR "main" .eGeneral
  , Call.addShader "samples/99_tmp/miss.rmiss.spv" .eMissKHR "main" .eGeneral
  , Call.addShader "samples/99_tmp/closesthit.rchit.spv" .eClosestHitKHR "main"
      .eTrianglesHitGroup
  , Call.createDescriptorSets 1
  , Call.addBindging 0 0 .eAccelerationStructureKHR 1 .eRaygenKHR
  , Call.addBindging 0 1 .eStorageImage 1 .eRaygenKHR
  , Call.addBindging 0 2 .eStorageBuffer 1 .eClosestHitKHR
  , Call.addBindging 0 3 .eStorageBuffer 1 .eClosestHitKHR
  , Call.addBindging 0 4 .eCombinedImageSampler 1 .eClosestHitKHR
  , Call.addBindging 0 5 .eUniformBuffer 1 .eRaygenKHR
  , Call.initPipelineLayout
  , Call.allocate
  , Call.addWriteInfo 0 0 .tlas
  , Call.addWriteInfo 0 1 .storageImage
  , Call.addWriteInfo 0 2 .vertexBuffer
  , Call.addWriteInfo 0 3 .indexBuffer
  , Call.addWriteInfo 0 4 .texture
  , Call.addWriteInfo 0 5 .ubo
  , Call.update
  , Call.createRayTracingPipeline 1
  , Call.initShaderBindingTable 0 1 2
  , Call.initDrawCommandBuffers ]

/-- The part of Application::run before the main loop (lines 97 to 170), every
collaborator call succeeding: the scene calls, createUniformBuffer, the pipeline
calls. -/
def Application.setup (app : Application) : Application :=
  ((app.calls sceneCalls).createUniformBuffer).calls pipelineCalls

/-- The body of the main loop of Application::run, `evs` being the events its
pollEvents delivers: `++frame`, pollEvents, draw, updateUniformBuffer. -/
def Application.iteration (G : Glm) (app : Application) (evs : List Event) : Application :=
  let app := { app with frame := (app.frame + 1) % 2 ^ 64 }
  let app := app.pollEvents G evs
  let app := app.draw
  app.updateUniformBuffer

/-- The main loop of Application::run. Each element of `frames` is one iteration
for which `window->shouldClose()` is false, holding the events its pollEvents
delivers; the window asks to close when `frames` is exhausted. -/
def Application.mainLoop (G : Glm) : Application → List (List Event) → Application
  | app, [] => app
  | app, evs :: frames => Application.mainLoop G (app.iteration G evs) frames

/-- The method Application::run() of the glTF sample. -/
def Application.run (G : Glm) (app : Application) (frames : List (List Event)) :
    Application :=
  (Application.mainLoop G app.setup frames).calls [Call.waitIdle]

/-! ## Reading the call trace -/

/-- The (set, index) pair of a call of addBindging. -/
def Call.declared : Call → Option (ℕ × ℕ)
  | .addBindging set index _ _ _ => some (set, index)
  | _ => none

/-- The (set, index) pair of a call of addWriteInfo. -/
def Call.written : Call → Option (ℕ × ℕ)
  | .addWriteInfo set index _ => some (set, index)
  | _ => none

/-- The stage and group type of a call of addShader. -/
def Call.shaderGroup : Call → Option (ShaderStage × GroupType)
  | .addShader _ stage _ groupType => some (stage, groupType)
  | _ => none

/-- The three numeric arguments of a call of initShaderBindingTable. -/
def Call.sbtArgs : Call → Option (ℕ × ℕ × ℕ)
  | .initShaderBindingTable a b c => some (a, b, c)
  | _ => none

/-- The calls of a trace that come before the first `DescriptorSets::update()`. -/
def beforeUpdate (t : List Call) : List Call :=
  t.takeWhile (fun c => decide (c ≠ Call.update))

/-- The calls of a trace from the first `DescriptorSets::update()` on. -/
def fromUpdate (t : List Call) : List Call :=
  t.dropWhile (fun c => decide (c ≠ Call.update))

/-- The calls of a trace that come after the call of initDrawCommandBuffers. -/
def afterSetup (t : List Call) : List Call :=
  (t.dropWhile (fun c => decide (c ≠ Call.initDrawCommandBuffers))).drop 1

/-- The number of registered shader groups of a given stage. -/
def stageCount (groups : List (ShaderStage × GroupType)) (stage : ShaderStage) : ℕ :=
  (groups.filter (fun g => decide (g.1 = stage))).length

/-! ## Entry points -/

/-- An exception object derived from std::exception, with its `what()` message. -/
structure StdException where
  what : String
deriving DecidableEq

/-- What a finished `main` leaves behind: the text written to std::cerr and the
returned status. -/
structure ProcessResult where
  cerr : String
  status : ℤ
deriving DecidableEq

/-- The macro EXIT_SUCCESS of cstdlib, which is not among the sources: the status
zero. -/
def EXIT_SUCCESS : ℤ := 0

/-- The macro EXIT_FAILURE of cstdlib, which is not among the sources: a non-zero
status, 1 on the platforms the samples build for. -/
def EXIT_FAILURE : ℤ := 1

namespace GltfScene

/-- The function main of samples/05_gltf_scene/05_gltf_scene.cpp; `run` is the
outcome of `app.run()`: completion, or a thrown std::exception. -/
def main (run : Except StdException Unit) : ProcessResult :=
  match run with
  | .error e => { cerr := e.what ++ "\n", status := EXIT_FAILURE }
  | .ok _ => { cerr := "", status := EXIT_SUCCESS }

end GltfScene

namespace HelloTriangle

/-- The function main of samples/hello_triangle.cpp; `run` is the outcome of
`app.run()`: completion, or a thrown std::exception. -/
def main (run : Except StdException Unit) : ProcessResult :=
  match run with
  | .error e => { cerr := e.what ++ "\n", status := EXIT_FAILURE }
  | .ok _ => { cerr := "", status := EXIT_SUCCESS }

end HelloTriangle

/-- A computable inhabitant of `Glm` for evaluating the model at concrete inputs:
each function stores its arguments in the entries of its result. No theorem
depends on the values it produces. -/
def Glm.recording : Glm where
  radians d := d
  rotate angle axis := ⟨⟨angle, axis.x, axis.y, axis.z⟩, ⟨0, 1, 0, 0⟩, ⟨0, 0, 1, 0⟩, ⟨0, 0, 0, 1⟩⟩
  lookAt eye center up :=
    ⟨⟨eye.x, eye.y, eye.z, 0⟩, ⟨center.x, center.y, center.z, 0⟩, ⟨up.x, up.y, up.z, 0⟩,
      ⟨0, 0, 0, 1⟩⟩
  perspective fovy aspect zNear zFar :=
    ⟨⟨fovy, aspect, zNear, zFar⟩, ⟨0, 1, 0, 0⟩, ⟨0, 0, 1, 0⟩, ⟨0, 0, 0, 1⟩⟩
  inverse m := m

/-- The identity matrix `glm::mat4(1)`. -/
def Mat4.one : Mat4 := ⟨⟨1, 0, 0, 0⟩, ⟨0, 1, 0, 0⟩, ⟨0, 0, 1, 0⟩, ⟨0, 0, 0, 1⟩⟩

/-- The (set, index) pairs declared with addBindging, in call order. -/
def declaredPairs (t : List Call) : List (ℕ × ℕ) := t.filterMap Call.declared

/-- The (set, index) pairs named by addWriteInfo, in call order. -/
def writtenPairs (t : List Call) : List (ℕ × ℕ) := t.filterMap Call.written

/-- The shader groups registered with addShader, in registration order. -/
def shaderGroups (t : List Call) : List (ShaderStage × GroupType) :=
  t.filterMap Call.shaderGroup

/-- The numeric argument triples of the calls of initShaderBindingTable. -/
def sbtCalls (t : List Call) : List (ℕ × ℕ × ℕ) := t.filterMap Call.sbtArgs

/-- The collaborator calls of the main loop, three per iteration. -/
def loopCalls (frames : List (List Event)) : List Call :=
  frames.flatMap (fun _ => [Call.pollEvents, Call.draw, Call.bufferCopy])

/-- The collaborator calls of the part of Application::run before the main loop:
the scene calls, the two calls of createUniformBuffer, the pipeline calls. -/
def setupCalls : List Call :=
  sceneCalls ++ [Call.createBuffer, Call.bufferCopy] ++ pipelineCalls

/-- Two Application states agree on the members the input handlers read and write:
`lastCursorPos`, `nowPressed` and `camera`. -/
def Application.sameInput (a b : Application) : Prop :=
  a.lastCursorPos = b.lastCursorPos ∧ a.nowPressed = b.nowPressed ∧ a.camera = b.camera

instance (a b : Application) : Decidable (a.sameInput b) :=
  inferInstanceAs (Decidable (_ ∧ _ ∧ _))

/-- The uniform data with model matrix `model` and the two matrices of camera `c`. -/
def uniformOf (model : Mat4) (c : Camera) : UniformData :=
  { model := model, invView := c.invView, invProj := c.invProj }

/-! ## Vocabulary of the input sub-protocol -/

/-- The action of the most recent event for button 0 in a sequence of events, or
`none` when the sequence has no event for button 0. -/
def lastPrimaryAction (evs : List Event) : Option ℤ :=
  evs.foldl
    (fun acc e =>
      match e with
      | .mouseButton button action _ _ => if button = 0 then some action else acc
      | .cursorPosition _ _ => acc)
    none

/-- A mouse-button event reports a press (1) or a release (0), the two actions the
comment in onMouseButton names. -/
def Event.pressOrRelease : Event → Prop
  | .mouseButton _ action _ _ => action = 0 ∨ action = 1
  | .cursorPosition _ _ => True

instance : DecidablePred Event.pressOrRelease := fun e =>
  match e with
  | .mouseButton _ action _ _ => inferInstanceAs (Decidable (action = 0 ∨ action = 1))
  | .cursorPosition _ _ => inferInstanceAs (Decidable True)

/-- The cursor-move events through a list of positions. -/
def moveEvents (ps : List (ℚ × ℚ)) : List Event :=
  ps.map (fun p => Event.cursorPosition p.1 p.2)

/-! ## Camera::update: the stored angles -/

theorem clamp_bounds (v lo hi : ℚ) (h : lo ≤ hi) : lo ≤ clamp v lo hi ∧ clamp v lo hi ≤ hi := by
  unfold clamp
  split_ifs with h1 h2
  · exact ⟨le_refl _, h⟩
  · exact ⟨h, le_refl _⟩
  · exact ⟨not_lt.mp h1, not_lt.mp h2⟩

theorem clamp_of_mem (v lo hi : ℚ) (h1 : lo ≤ v) (h2 : v ≤ hi) : clamp v lo hi = v := by
  unfold clamp
  rw [if_neg (not_lt.mpr h1), if_neg (not_lt.mpr h2)]

theorem update_theta (G : Glm) (c : Camera) (dx dy : ℚ) :
    (c.update G dx dy).theta = clamp (c.theta + dy) (-89) 89 := rfl

theorem update_theta_bounds (G : Glm) (c : Camera) (dx dy : ℚ) :
    -89 ≤ (c.update G dx dy).theta ∧ (c.update G dx dy).theta ≤ 89 := by
  rw [update_theta]
  exact clamp_bounds _ _ _ (by norm_num)

theorem updates_theta_bounds (G : Glm) (ds : List (ℚ × ℚ)) :
    ∀ c : Camera, (-89 ≤ c.theta ∧ c.theta ≤ 89) →
      -89 ≤ (c.updates G ds).theta ∧ (c.updates G ds).theta ≤ 89 := by
  induction ds with
  | nil => intro c hc; exact hc
  | cons d ds ih =>
    intro c _
    exact ih (c.update G d.1 d.2) (update_theta_bounds G c d.1 d.2)

theorem updates_fixed_members (G : Glm) (ds : List (ℚ × ℚ)) :
    ∀ c : Camera, (c.updates G ds).pos = c.pos ∧ (c.updates G ds).target = c.target ∧
      (c.updates G ds).up = c.up := by
  induction ds with
  | nil => intro c; exact ⟨rfl, rfl, rfl⟩
  | cons d ds ih => intro c; exact ih (c.update G d.1 d.2)

/-- C1: whatever the stored pitch and whatever the deltas, the pitch stored by
Camera::update lies in [-89, 89]; hence after each call of any sequence of updates
of the default-constructed camera the pitch lies in [-89, 89] (`ds.take n` is the
sequence up to its n-th call). -/
theorem camera_update_pitch_bounded (G : Glm) :
    (∀ (c : Camera) (dx dy : ℚ),
      -89 ≤ (c.update G dx dy).theta ∧ (c.update G dx dy).theta ≤ 89) ∧
    (∀ (ds : List (ℚ × ℚ)) (n : ℕ),
      -89 ≤ ((Camera.ctor G).updates G (ds.take n)).theta ∧
      ((Camera.ctor G).updates G (ds.take n)).theta ≤ 89) := by
  refine ⟨update_theta_bounds G, fun ds n => ?_⟩
  apply updates_theta_bounds
  show (-89 : ℚ) ≤ 0 ∧ (0 : ℚ) ≤ 89
  constructor <;> norm_num

/-- C4: the pitch stored by update(dx, dy) is stored again unchanged by a following
update(dx2, 0); and for a pitch already in [-89, 89], update(dx, 0) leaves the
pitch as it is. -/
theorem camera_update_clamp_idempotent (G : Glm) :
    (∀ (c : Camera) (dx dy dx2 : ℚ),
      ((c.update G dx dy).update G dx2 0).theta = (c.update G dx dy).theta) ∧
    (∀ (c : Camera) (dx : ℚ), -89 ≤ c.theta → c.theta ≤ 89 →
      (c.update G dx 0).theta = c.theta) := by
  have key : ∀ (c : Camera) (dx : ℚ), -89 ≤ c.theta → c.theta ≤ 89 →
      (c.update G dx 0).theta = c.theta := by
    intro c dx h1 h2
    rw [update_theta, add_zero]
    exact clamp_of_mem _ _ _ h1 h2
  refine ⟨fun c dx dy dx2 => ?_, key⟩
  exact key _ dx2 (update_theta_bounds G c dx dy).1 (update_theta_bounds G c dx dy).2

/-- C4 at a concrete camera: the default-constructed camera after update(0, 100)
has pitch 89, within [-89, 89], and update(5, 0) leaves that pitch as it is. -/
theorem camera_update_clamp_idempotent_witness :
    -89 ≤ ((Camera.ctor Glm.recording).update Glm.recording 0 100).theta ∧
    ((Camera.ctor Glm.recording).update Glm.recording 0 100).theta ≤ 89 ∧
    (((Camera.ctor Glm.recording).update Glm.recording 0 100).update Glm.recording 5 0).theta =
      ((Camera.ctor Glm.recording).update Glm.recording 0 100).theta :=
  have h : ((Camera.ctor Glm.recording).update Glm.recording 0 100).theta = 89 := by
    simp [update_theta, Camera.ctor, clamp]
    norm_num
  have h1 : -89 ≤ ((Camera.ctor Glm.recording).update Glm.recording 0 100).theta := by
    rw [h]; norm_num
  have h2 : ((Camera.ctor Glm.recording).update Glm.recording 0 100).theta ≤ 89 := by
    rw [h]
  ⟨h1, h2, (camera_update_clamp_idempotent Glm.recording).2 _ 5 h1 h2⟩

/-! ## The input handlers -/

theorem onMouseButton_primary (app : Application) (cur : Vec2) (action mods : ℤ) :
    app.onMouseButton cur 0 action mods =
      { app with nowPressed := decide (action ≠ 0), lastCursorPos := cur } := by
  simp [Application.onMouseButton]

theorem onCursorPosition_pressed (G : Glm) (app : Application) (x y : ℚ)
    (h : app.nowPressed = true) :
    app.onCursorPosition G x y =
      { app with
        camera := app.camera.update G (x - app.lastCursorPos.x) (y - app.lastCursorPos.y)
        lastCursorPos := ⟨x, y⟩ } := by
  simp [Application.onCursorPosition, h]

theorem onCursorPosition_released (G : Glm) (app : Application) (x y : ℚ)
    (h : app.nowPressed = false) : app.onCursorPosition G x y = app := by
  simp [Application.onCursorPosition, h]

theorem press_then_move (G : Glm) (app : Application) (x0 y0 x1 y1 : ℚ) (mods : ℤ) :
    (app.onMouseButton ⟨x0, y0⟩ 0 1 mods).onCursorPosition G x1 y1 =
      { app with
        nowPressed := true
        camera := app.camera.update G (x1 - x0) (y1 - y0)
        lastCursorPos := ⟨x1, y1⟩ } := by
  rw [onMouseButton_primary, onCursorPosition_pressed _ _ _ _ (by simp)]
  simp

theorem handle_append (G : Glm) (app : Application) (es fs : List Event) :
    app.handle G (es ++ fs) = (app.handle G es).handle G fs := by
  simp [Application.handle, List.foldl_append]

theorem handle_cons (G : Glm) (app : Application) (e : Event) (es : List Event) :
    app.handle G (e :: es) = (app.dispatch G e).handle G es := rfl

theorem lastPrimaryAction_snoc (evs : List Event) (e : Event) :
    lastPrimaryAction (evs ++ [e]) =
      match e with
      | .mouseButton button action _ _ =>
        if button = 0 then some action else lastPrimaryAction evs
      | .cursorPosition _ _ => lastPrimaryAction evs := by
  simp only [lastPrimaryAction, List.foldl_append, List.foldl_cons, List.foldl_nil]

theorem handle_nowPressed (G : Glm) (p0 : Vec2) (u0 : UniformData) (evs : List Event) :
    ((Application.ctor G p0 u0).handle G evs).nowPressed =
      match lastPrimaryAction evs with
      | some a => decide (a ≠ 0)
      | none => false := by
  induction evs using List.reverseRecOn with
  | nil => rfl
  | append_singleton evs e ih =>
    rw [handle_append, lastPrimaryAction_snoc]
    cases e with
    | cursorPosition x y =>
      show (((Application.ctor G p0 u0).handle G evs).onCursorPosition G x y).nowPressed = _
      rw [← ih]
      unfold Application.onCursorPosition
      split_ifs <;> rfl
    | mouseButton button action mods cur =>
      show (((Application.ctor G p0 u0).handle G evs).onMouseButton cur button action
        mods).nowPressed = _
      unfold Application.onMouseButton
      by_cases hb : button = 0
      · simp [hb]
      · simp only [hb, if_false]
        exact ih

theorem lastPrimaryAction_pressOrRelease (evs : List Event)
    (h : ∀ e ∈ evs, e.pressOrRelease) (a : ℤ) (ha : lastPrimaryAction evs = some a) :
    a = 0 ∨ a = 1 := by
  induction evs using List.reverseRecOn generalizing a with
  | nil => simp [lastPrimaryAction] at ha
  | append_singleton evs e ih =>
    rw [lastPrimaryAction_snoc] at ha
    have he : e.pressOrRelease := h e (by simp)
    have hevs : ∀ e ∈ evs, e.pressOrRelease := fun e' he' => h e' (by simp [he'])
    cases e with
    | cursorPosition x y => exact ih hevs a ha
    | mouseButton button action mods cur =>
      by_cases hb : button = 0
      · simp only [hb, if_true, Option.some.injEq] at ha
        rw [← ha]
        exact he
      · simp only [hb, if_false] at ha
        exact ih hevs a ha

theorem handle_nowPressed_iff (G : Glm) (p0 : Vec2) (u0 : UniformData) (evs : List Event) :
    ((Application.ctor G p0 u0).handle G evs).nowPressed = true ↔
      ∃ a, lastPrimaryAction evs = some a ∧ a ≠ 0 := by
  rw [handle_nowPressed]
  cases lastPrimaryAction evs with
  | none => simp
  | some a => simp

theorem handle_nowPressed_iff_press (G : Glm) (p0 : Vec2) (u0 : UniformData)
    (evs : List Event) (h : ∀ e ∈ evs, e.pressOrRelease) :
    ((Application.ctor G p0 u0).handle G evs).nowPressed = true ↔
      lastPrimaryAction evs = some 1 := by
  rw [handle_nowPressed_iff]
  constructor
  · rintro ⟨a, ha, hne⟩
    rcases lastPrimaryAction_pressOrRelease evs h a ha with h0 | h1
    · exact absurd h0 hne
    · rw [ha, h1]
  · intro h1
    exact ⟨1, h1, one_ne_zero⟩

/-- C8: along every sequence of press/release and move events applied to the
default-constructed Application, the drag flag is set exactly when the most recent
event for button 0 was a press (action 1); for actions of any value, exactly when
that event had a non-zero action; a move event arriving while the most recent
button-0 event was not a press leaves the whole state unchanged; in any state a
move with the flag clear, and a button event for a button other than 0, leave the
whole state unchanged. -/
theorem drag_gating (G : Glm) (p0 : Vec2) (u0 : UniformData) :
    (∀ evs : List Event, (∀ e ∈ evs, e.pressOrRelease) →
      (((Application.ctor G p0 u0).handle G evs).nowPressed = true ↔
        lastPrimaryAction evs = some 1)) ∧
    (∀ evs : List Event,
      (((Application.ctor G p0 u0).handle G evs).nowPressed = true ↔
        ∃ a, lastPrimaryAction evs = some a ∧ a ≠ 0)) ∧
    (∀ (evs : List Event) (x y : ℚ), (∀ e ∈ evs, e.pressOrRelease) →
      lastPrimaryAction evs ≠ some 1 →
      (Application.ctor G p0 u0).handle G (evs ++ [Event.cursorPosition x y]) =
        (Application.ctor G p0 u0).handle G evs) ∧
    (∀ (app : Application) (x y : ℚ), app.nowPressed = false →
      app.onCursorPosition G x y = app) ∧
    (∀ (app : Application) (cur : Vec2) (button action mods : ℤ), button ≠ 0 →
      app.onMouseButton cur button action mods = app) := by
  refine ⟨handle_nowPressed_iff_press G p0 u0, handle_nowPressed_iff G p0 u0, ?_,
    onCursorPosition_released G, ?_⟩
  · intro evs x y hwf hlast
    rw [handle_append]
    show ((Application.ctor G p0 u0).handle G evs).onCursorPosition G x y = _
    apply onCursorPosition_released
    cases hp : ((Application.ctor G p0 u0).handle G evs).nowPressed with
    | false => rfl
    | true => exact absurd ((handle_nowPressed_iff_press G p0 u0 evs hwf).mp hp) hlast
  · intro app cur button action mods hb
    simp [Application.onMouseButton, hb]

/-- C8 at a concrete sequence: after a press and a release of button 0, a move to
(150, 120) leaves the state as the release left it. -/
theorem drag_gating_witness :
    (Application.ctor Glm.recording ⟨0, 0⟩ ⟨Mat4.one, Mat4.one, Mat4.one⟩).handle
        Glm.recording
        ([Event.mouseButton 0 1 0 ⟨100, 100⟩, Event.mouseButton 0 0 0 ⟨100, 100⟩] ++
          [Event.cursorPosition 150 120]) =
      (Application.ctor Glm.recording ⟨0, 0⟩ ⟨Mat4.one, Mat4.one, Mat4.one⟩).handle
        Glm.recording
        [Event.mouseButton 0 1 0 ⟨100, 100⟩, Event.mouseButton 0 0 0 ⟨100, 100⟩] :=
  (drag_gating Glm.recording ⟨0, 0⟩ ⟨Mat4.one, Mat4.one, Mat4.one⟩).2.2.1
    [Event.mouseButton 0 1 0 ⟨100, 100⟩, Event.mouseButton 0 0 0 ⟨100, 100⟩] 150 120
    (by simp [Event.pressOrRelease]) (by simp [lastPrimaryAction])

theorem handle_moves_pressed (G : Glm) (moves : List (ℚ × ℚ)) :
    ∀ app : Application, app.nowPressed = true →
      (app.handle G (moveEvents moves)).nowPressed = true ∧
      (app.handle G (moveEvents moves)).camera.phi +
          (app.handle G (moveEvents moves)).lastCursorPos.x =
        app.camera.phi + app.lastCursorPos.x := by
  induction moves with
  | nil => intro app h; exact ⟨h, rfl⟩
  | cons m ms ih =>
    intro app h
    show ((app.onCursorPosition G m.1 m.2).handle G (moveEvents ms)).nowPressed = true ∧
      ((app.onCursorPosition G m.1 m.2).handle G (moveEvents ms)).camera.phi +
          ((app.onCursorPosition G m.1 m.2).handle G (moveEvents ms)).lastCursorPos.x = _
    have hstep := onCursorPosition_pressed G app m.1 m.2 h
    have hp : (app.onCursorPosition G m.1 m.2).nowPressed = true := by rw [hstep]; exact h
    obtain ⟨h1, h2⟩ := ih _ hp
    refine ⟨h1, ?_⟩
    rw [h2, hstep]
    show app.camera.phi - (m.1 - app.lastCursorPos.x) + m.1 = _
    ring

/-- C10: a press of button 0 at (x0, y0) from yaw phi0, followed by any non-empty
sequence of moves ending at (xn, yn) and no button event, leaves the yaw at
phi0 - (xn - x0), whatever the intermediate positions, and lastCursorPos at
(xn, yn); the pitch does not telescope: from the default-constructed Application,
a press at (0, 0) and moves to (0, 200) and back to (0, 0) leave the pitch at -89,
not at clamp(0 + (0 - 0), -89, 89) = 0. -/
theorem yaw_path_independent (G : Glm) :
    (∀ (app : Application) (x0 y0 : ℚ) (mods : ℤ) (moves : List (ℚ × ℚ)) (xn yn : ℚ),
      ((app.onMouseButton ⟨x0, y0⟩ 0 1 mods).handle G
          (moveEvents (moves ++ [(xn, yn)]))).camera.phi = app.camera.phi - (xn - x0) ∧
      ((app.onMouseButton ⟨x0, y0⟩ 0 1 mods).handle G
          (moveEvents (moves ++ [(xn, yn)]))).lastCursorPos = ⟨xn, yn⟩) ∧
    (∀ (p0 : Vec2) (u0 : UniformData) (mods : ℤ),
      (((Application.ctor G p0 u0).onMouseButton ⟨0, 0⟩ 0 1 mods).handle G
          (moveEvents [(0, 200), (0, 0)])).camera.theta = -89 ∧
      clamp ((Application.ctor G p0 u0).camera.theta + (0 - 0)) (-89) 89 = 0) := by
  refine ⟨fun app x0 y0 mods moves xn yn => ?_, fun p0 u0 mods => ⟨?_, ?_⟩⟩
  · have hpress : (app.onMouseButton ⟨x0, y0⟩ 0 1 mods).nowPressed = true := by
      rw [onMouseButton_primary]; simp
    obtain ⟨h1, h2⟩ := handle_moves_pressed G moves _ hpress
    have hsplit : moveEvents (moves ++ [(xn, yn)]) =
        moveEvents moves ++ [Event.cursorPosition xn yn] := by
      simp [moveEvents]
    rw [hsplit, handle_append]
    show (((app.onMouseButton ⟨x0, y0⟩ 0 1 mods).handle G
        (moveEvents moves)).onCursorPosition G xn yn).camera.phi = _ ∧
      (((app.onMouseButton ⟨x0, y0⟩ 0 1 mods).handle G
        (moveEvents moves)).onCursorPosition G xn yn).lastCursorPos = _
    rw [onCursorPosition_pressed _ _ _ _ h1]
    refine ⟨?_, rfl⟩
    show ((app.onMouseButton ⟨x0, y0⟩ 0 1 mods).handle G (moveEvents moves)).camera.phi -
      (xn - ((app.onMouseButton ⟨x0, y0⟩ 0 1 mods).handle G
        (moveEvents moves)).lastCursorPos.x) = _
    have h3 : (app.onMouseButton ⟨x0, y0⟩ 0 1 mods).camera.phi +
        (app.onMouseButton ⟨x0, y0⟩ 0 1 mods).lastCursorPos.x = app.camera.phi + x0 := by
      rw [onMouseButton_primary]
    linarith
  · show ((((Application.ctor G p0 u0).onMouseButton ⟨0, 0⟩ 0 1 mods).onCursorPosition G 0
      200).onCursorPosition G 0 0).camera.theta = -89
    rw [press_then_move, onCursorPosition_pressed _ _ _ _ rfl]
    show clamp (clamp ((0 : ℚ) + (200 - 0)) (-89) 89 + (0 - 200)) (-89) 89 = -89
    simp only [clamp]
    norm_num
  · show clamp ((0 : ℚ) + (0 - 0)) (-89) 89 = 0
    simp only [clamp]
    norm_num

/-! ## The call trace of Application::run -/

theorem dispatch_trace (G : Glm) (app : Application) (e : Event) :
    (app.dispatch G e).trace = app.trace ∧ (app.dispatch G e).presented = app.presented ∧
      (app.dispatch G e).ubo = app.ubo ∧ (app.dispatch G e).uniformData = app.uniformData := by
  cases e with
  | cursorPosition x y =>
    show (app.onCursorPosition G x y).trace = _ ∧ (app.onCursorPosition G x y).presented = _ ∧
      (app.onCursorPosition G x y).ubo = _ ∧ (app.onCursorPosition G x y).uniformData = _
    unfold Application.onCursorPosition
    split_ifs <;> exact ⟨rfl, rfl, rfl, rfl⟩
  | mouseButton button action mods cur =>
    show (app.onMouseButton cur button action mods).trace = _ ∧
      (app.onMouseButton cur button action mods).presented = _ ∧
      (app.onMouseButton cur button action mods).ubo = _ ∧
      (app.onMouseButton cur button action mods).uniformData = _
    unfold Application.onMouseButton
    split_ifs <;> exact ⟨rfl, rfl, rfl, rfl⟩

theorem handle_trace (G : Glm) (evs : List Event) :
    ∀ app : Application,
      (app.handle G evs).trace = app.trace ∧ (app.handle G evs).presented = app.presented ∧
      (app.handle G evs).ubo = app.ubo ∧ (app.handle G evs).uniformData = app.uniformData := by
  induction evs with
  | nil => intro app; exact ⟨rfl, rfl, rfl, rfl⟩
  | cons e es ih =>
    intro app
    rw [handle_cons]
    obtain ⟨h1, h2, h3, h4⟩ := ih (app.dispatch G e)
    obtain ⟨d1, d2, d3, d4⟩ := dispatch_trace G app e
    exact ⟨h1.trans d1, h2.trans d2, h3.trans d3, h4.trans d4⟩

theorem iteration_fields (G : Glm) (app : Application) (evs : List Event) :
    (app.iteration G evs).trace =
        app.trace ++ [Call.pollEvents, Call.draw, Call.bufferCopy] ∧
      (app.iteration G evs).presented = app.presented ++ [app.ubo] ∧
      (app.iteration G evs).uniformData =
        uniformOf app.uniformData.model (app.iteration G evs).camera ∧
      (app.iteration G evs).ubo =
        app.ubo.map (fun _ => uniformOf app.uniformData.model (app.iteration G evs).camera) := by
  obtain ⟨h1, h2, h3, h4⟩ :=
    handle_trace G evs (({ app with frame := (app.frame + 1) % 2 ^ 64 }).calls [Call.pollEvents])
  simp only [Application.iteration, Application.updateUniformBuffer, Application.bufferCopy,
    Application.draw, Application.pollEvents, uniformOf, h1, h2, h3, h4]
  simp [Application.calls]

theorem mainLoop_trace (G : Glm) (frames : List (List Event)) :
    ∀ app : Application,
      (Application.mainLoop G app frames).trace = app.trace ++ loopCalls frames := by
  induction frames with
  | nil => intro app; simp [Application.mainLoop, loopCalls]
  | cons evs frames ih =>
    intro app
    rw [Application.mainLoop, ih, (iteration_fields G app evs).1]
    simp [loopCalls]

theorem setup_trace (app : Application) : app.setup.trace = app.trace ++ setupCalls := by
  simp [Application.setup, Application.calls, Application.createUniformBuffer,
    Application.updateUniformBuffer, Application.bufferCopy, setupCalls]

theorem run_trace (G : Glm) (p0 : Vec2) (u0 : UniformData) (frames : List (List Event)) :
    ((Application.ctor G p0 u0).run G frames).trace =
      setupCalls ++ (loopCalls frames ++ [Call.waitIdle]) := by
  simp [Application.run, Application.calls, mainLoop_trace, setup_trace, Application.ctor]

theorem loopCalls_filterMap {α : Type} (f : Call → Option α) (h1 : f Call.pollEvents = none)
    (h2 : f Call.draw = none) (h3 : f Call.bufferCopy = none) (frames : List (List Event)) :
    (loopCalls frames).filterMap f = [] := by
  induction frames with
  | nil => rfl
  | cons evs frames ih =>
    have hcons : loopCalls (evs :: frames) =
        Call.pollEvents :: Call.draw :: Call.bufferCopy :: loopCalls frames := by
      simp [loopCalls]
    rw [hcons, List.filterMap_cons_none h1, List.filterMap_cons_none h2,
      List.filterMap_cons_none h3, ih]

theorem filterMap_run_trace {α : Type} (f : Call → Option α) (h1 : f Call.pollEvents = none)
    (h2 : f Call.draw = none) (h3 : f Call.bufferCopy = none) (h4 : f Call.waitIdle = none)
    (G : Glm) (p0 : Vec2) (u0 : UniformData) (frames : List (List Event)) :
    (((Application.ctor G p0 u0).run G frames).trace).filterMap f = setupCalls.filterMap f := by
  rw [run_trace, List.filterMap_append, List.filterMap_append,
    loopCalls_filterMap f h1 h2 h3, List.filterMap_cons_none h4]
  simp

theorem beforeUpdate_run_trace (G : Glm) (p0 : Vec2) (u0 : UniformData)
    (frames : List (List Event)) :
    beforeUpdate ((Application.ctor G p0 u0).run G frames).trace = beforeUpdate setupCalls := by
  rw [run_trace]
  unfold beforeUpdate
  rw [List.takeWhile_append, if_neg (by decide)]

theorem fromUpdate_run_trace (G : Glm) (p0 : Vec2) (u0 : UniformData)
    (frames : List (List Event)) :
    fromUpdate ((Application.ctor G p0 u0).run G frames).trace =
      fromUpdate setupCalls ++ (loopCalls frames ++ [Call.waitIdle]) := by
  rw [run_trace]
  unfold fromUpdate
  rw [List.dropWhile_append, if_neg (by decide)]

/-- C6: in the call trace of Application::run of the glTF sample, whatever the
frames, the pairs declared with addBindging are (0,0), ..., (0,5), all declared
before update(); the pairs written with addWriteInfo before update() are the same
six, each once; no addWriteInfo comes at or after update(); update() is called; so
the written pairs are a permutation of the declared pairs, which are pairwise
distinct, and every written pair is a declared one. -/
theorem descriptor_writes_match_declarations (G : Glm) (p0 : Vec2) (u0 : UniformData)
    (frames : List (List Event)) :
    declaredPairs ((Application.ctor G p0 u0).run G frames).trace =
        [(0, 0), (0, 1), (0, 2), (0, 3), (0, 4), (0, 5)] ∧
    declaredPairs (beforeUpdate ((Application.ctor G p0 u0).run G frames).trace) =
        declaredPairs ((Application.ctor G p0 u0).run G frames).trace ∧
    writtenPairs (beforeUpdate ((Application.ctor G p0 u0).run G frames).trace) =
        [(0, 0), (0, 1), (0, 2), (0, 3), (0, 4), (0, 5)] ∧
    writtenPairs (fromUpdate ((Application.ctor G p0 u0).run G frames).trace) = [] ∧
    Call.update ∈ ((Application.ctor G p0 u0).run G frames).trace ∧
    (writtenPairs (beforeUpdate ((Application.ctor G p0 u0).run G frames).trace)).Perm
        (declaredPairs ((Application.ctor G p0 u0).run G frames).trace) ∧
    (declaredPairs ((Application.ctor G p0 u0).run G frames).trace).Nodup ∧
    (∀ p ∈ declaredPairs ((Application.ctor G p0 u0).run G frames).trace,
      (writtenPairs (beforeUpdate ((Application.ctor G p0 u0).run G frames).trace)).count p
        = 1) ∧
    (∀ p ∈ writtenPairs ((Application.ctor G p0 u0).run G frames).trace,
      p ∈ declaredPairs ((Application.ctor G p0 u0).run G frames).trace) := by
  have hd : declaredPairs ((Application.ctor G p0 u0).run G frames).trace =
      [(0, 0), (0, 1), (0, 2), (0, 3), (0, 4), (0, 5)] := by
    unfold declaredPairs
    rw [filterMap_run_trace Call.declared rfl rfl rfl rfl]
    decide
  have hw : writtenPairs ((Application.ctor G p0 u0).run G frames).trace =
      [(0, 0), (0, 1), (0, 2), (0, 3), (0, 4), (0, 5)] := by
    unfold writtenPairs
    rw [filterMap_run_trace Call.written rfl rfl rfl rfl]
    decide
  have hwb : writtenPairs (beforeUpdate ((Application.ctor G p0 u0).run G frames).trace) =
      [(0, 0), (0, 1), (0, 2), (0, 3), (0, 4), (0, 5)] := by
    rw [beforeUpdate_run_trace]
    decide
  have hdb : declaredPairs (beforeUpdate ((Application.ctor G p0 u0).run G frames).trace) =
      [(0, 0), (0, 1), (0, 2), (0, 3), (0, 4), (0, 5)] := by
    rw [beforeUpdate_run_trace]
    decide
  have hwa : writtenPairs (fromUpdate ((Application.ctor G p0 u0).run G frames).trace) = [] := by
    rw [fromUpdate_run_trace]
    unfold writtenPairs
    rw [List.filterMap_append, List.filterMap_append, loopCalls_filterMap Call.written rfl rfl rfl]
    decide
  have hu : Call.update ∈ ((Application.ctor G p0 u0).run G frames).trace := by
    rw [run_trace]
    exact List.mem_append_left _ (by decide)
  rw [hd, hdb, hwb, hwa, hw]
  refine ⟨rfl, rfl, rfl, rfl, hu, List.Perm.refl _, by decide, by decide, fun p hp => hp⟩

/-- C7, as the code has it: in the call trace of Application::run of the glTF
sample, whatever the frames, one raygen (general), one miss (general) and one
closest-hit (triangles-hit-group) stage are registered, in that order, so the
per-category counts are 1, 1 and 1; initShaderBindingTable is called once, with
the numeric arguments 0, 1 and 2, which are the registration indices of the
raygen, the miss and the closest-hit group; and the group at index 1 + 1 (the sum
of the raygen and miss counts, and the third argument passed) is the one
registered as eTrianglesHitGroup. -/
theorem sbt_arguments_are_group_indices (G : Glm) (p0 : Vec2) (u0 : UniformData)
    (frames : List (List Event)) :
    shaderGroups ((Application.ctor G p0 u0).run G frames).trace =
        [(ShaderStage.eRaygenKHR, GroupType.eGeneral), (ShaderStage.eMissKHR, GroupType.eGeneral),
          (ShaderStage.eClosestHitKHR, GroupType.eTrianglesHitGroup)] ∧
    stageCount (shaderGroups ((Application.ctor G p0 u0).run G frames).trace)
        ShaderStage.eRaygenKHR = 1 ∧
    stageCount (shaderGroups ((Application.ctor G p0 u0).run G frames).trace)
        ShaderStage.eMissKHR = 1 ∧
    stageCount (shaderGroups ((Application.ctor G p0 u0).run G frames).trace)
        ShaderStage.eClosestHitKHR = 1 ∧
    sbtCalls ((Application.ctor G p0 u0).run G frames).trace = [(0, 1, 2)] ∧
    (shaderGroups ((Application.ctor G p0 u0).run G frames).trace)[0]? =
        some (ShaderStage.eRaygenKHR, GroupType.eGeneral) ∧
    (shaderGroups ((Application.ctor G p0 u0).run G frames).trace)[1]? =
        some (ShaderStage.eMissKHR, GroupType.eGeneral) ∧
    (shaderGroups ((Application.ctor G p0 u0).run G frames).trace)[2]? =
        some (ShaderStage.eClosestHitKHR, GroupType.eTrianglesHitGroup) ∧
    (shaderGroups ((Application.ctor G p0 u0).run G frames).trace)[1 + 1]? =
        some (ShaderStage.eClosestHitKHR, GroupType.eTrianglesHitGroup) := by
  have hg : shaderGroups ((Application.ctor G p0 u0).run G frames).trace =
      [(ShaderStage.eRaygenKHR, GroupType.eGeneral), (ShaderStage.eMissKHR, GroupType.eGeneral),
        (ShaderStage.eClosestHitKHR, GroupType.eTrianglesHitGroup)] := by
    unfold shaderGroups
    rw [filterMap_run_trace Call.shaderGroup rfl rfl rfl rfl]
    decide
  have hs : sbtCalls ((Application.ctor G p0 u0).run G frames).trace = [(0, 1, 2)] := by
    unfold sbtCalls
    rw [filterMap_run_trace Call.sbtArgs rfl rfl rfl rfl]
    decide
  rw [hg, hs]
  exact ⟨rfl, by decide, by decide, by decide, rfl, rfl, rfl, rfl, rfl⟩

/-- C7 as stated fails: in the run with no frame, the numeric arguments passed to
initShaderBindingTable are not the per-category counts of the registered shader
groups (which are 1, 1, 1), and the group at the index that is the sum of the
first two arguments passed (0 + 1) is the miss group, registered as eGeneral. -/
theorem sbt_arguments_not_counts :
    sbtCalls ((Application.ctor Glm.recording ⟨0, 0⟩ ⟨Mat4.one, Mat4.one, Mat4.one⟩).run
        Glm.recording []).trace ≠
      [(stageCount (shaderGroups ((Application.ctor Glm.recording ⟨0, 0⟩
          ⟨Mat4.one, Mat4.one, Mat4.one⟩).run Glm.recording []).trace) ShaderStage.eRaygenKHR,
        stageCount (shaderGroups ((Application.ctor Glm.recording ⟨0, 0⟩
          ⟨Mat4.one, Mat4.one, Mat4.one⟩).run Glm.recording []).trace) ShaderStage.eMissKHR,
        stageCount (shaderGroups ((Application.ctor Glm.recording ⟨0, 0⟩
          ⟨Mat4.one, Mat4.one, Mat4.one⟩).run Glm.recording []).trace)
          ShaderStage.eClosestHitKHR)] ∧
    sbtCalls ((Application.ctor Glm.recording ⟨0, 0⟩ ⟨Mat4.one, Mat4.one, Mat4.one⟩).run
        Glm.recording []).trace ≠ [(1, 1, 1)] ∧
    (shaderGroups ((Application.ctor Glm.recording ⟨0, 0⟩ ⟨Mat4.one, Mat4.one, Mat4.one⟩).run
        Glm.recording []).trace)[0 + 1]? = some (ShaderStage.eMissKHR, GroupType.eGeneral) := by
  rw [run_trace]
  decide

/-! ## What each draw of the main loop consumes -/

theorem dispatch_sameInput (G : Glm) (a b : Application) (e : Event) (h : a.sameInput b) :
    (a.dispatch G e).sameInput (b.dispatch G e) := by
  obtain ⟨h1, h2, h3⟩ := h
  cases e with
  | cursorPosition x y =>
    show (a.onCursorPosition G x y).sameInput (b.onCursorPosition G x y)
    cases hb : b.nowPressed with
    | false =>
      rw [onCursorPosition_released G a x y (h2.trans hb), onCursorPosition_released G b x y hb]
      exact ⟨h1, h2, h3⟩
    | true =>
      rw [onCursorPosition_pressed G a x y (h2.trans hb), onCursorPosition_pressed G b x y hb]
      refine ⟨rfl, h2, ?_⟩
      show Camera.update G a.camera _ _ = Camera.update G b.camera _ _
      rw [h1, h3]
  | mouseButton button action mods cur =>
    show (a.onMouseButton cur button action mods).sameInput
      (b.onMouseButton cur button action mods)
    unfold Application.onMouseButton
    split_ifs
    · exact ⟨rfl, rfl, h3⟩
    · exact ⟨h1, h2, h3⟩

theorem handle_sameInput (G : Glm) (evs : List Event) :
    ∀ a b : Application, a.sameInput b → (a.handle G evs).sameInput (b.handle G evs) := by
  induction evs with
  | nil => intro a b h; exact h
  | cons e es ih =>
    intro a b h
    rw [handle_cons, handle_cons]
    exact ih _ _ (dispatch_sameInput G a b e h)

theorem iteration_sameInput (G : Glm) (app : Application) (evs : List Event) :
    (app.iteration G evs).sameInput (app.handle G evs) := by
  have h := handle_sameInput G evs (({ app with frame := (app.frame + 1) % 2 ^ 64 }).calls
    [Call.pollEvents]) app ⟨rfl, rfl, rfl⟩
  exact ⟨h.1, h.2.1, h.2.2⟩

theorem mainLoop_presented (G : Glm) (frames : List (List Event)) :
    ∀ app : Application, app.ubo = some app.uniformData →
      app.uniformData = uniformOf app.uniformData.model app.camera →
      (Application.mainLoop G app frames).presented =
        app.presented ++ (List.range frames.length).map (fun k =>
          some (uniformOf app.uniformData.model
            (app.handle G (frames.take k).flatten).camera)) := by
  induction frames with
  | nil => intro app _ _; simp [Application.mainLoop]
  | cons evs frames ih =>
    intro app hubo hsync
    obtain ⟨_, hpres, hdata, hbuf⟩ := iteration_fields G app evs
    have hin := iteration_sameInput G app evs
    have hmodel : (app.iteration G evs).uniformData.model = app.uniformData.model := by
      rw [hdata]; rfl
    rw [Application.mainLoop, ih (app.iteration G evs)
      (by rw [hbuf, hubo, hdata]; rfl) (by rw [hmodel]; exact hdata)]
    rw [hpres, hmodel, hubo, List.length_cons, List.range_succ_eq_map, List.map_cons,
      List.map_map, List.append_assoc]
    congr 1
    rw [List.singleton_append]
    congr 1
    · rw [List.take_zero, List.flatten_nil]
      exact congrArg some hsync
    · apply List.map_congr_left
      intro k _
      show some (uniformOf _ _) = some (uniformOf _ _)
      rw [List.take_succ_cons, List.flatten_cons, handle_append,
        (handle_sameInput G (List.take k frames).flatten _ _ hin).2.2]

theorem setup_fields (G : Glm) (p0 : Vec2) (u0 : UniformData) :
    (Application.ctor G p0 u0).setup.ubo = some (Application.ctor G p0 u0).setup.uniformData ∧
      (Application.ctor G p0 u0).setup.uniformData = uniformOf u0.model (Camera.ctor G) ∧
      (Application.ctor G p0 u0).setup.presented = [] ∧
      (Application.ctor G p0 u0).setup.sameInput (Application.ctor G p0 u0) :=
  ⟨rfl, rfl, rfl, rfl, rfl, rfl⟩

theorem mainLoop_sameInput (G : Glm) (frames : List (List Event)) :
    ∀ a b : Application, a.sameInput b →
      (Application.mainLoop G a frames).sameInput (b.handle G frames.flatten) := by
  induction frames with
  | nil => intro a b h; exact h
  | cons evs frames ih =>
    intro a b h
    rw [Application.mainLoop, List.flatten_cons, handle_append]
    apply ih
    obtain ⟨h1, h2, h3⟩ := iteration_sameInput G a evs
    obtain ⟨k1, k2, k3⟩ := handle_sameInput G evs a b h
    exact ⟨h1.trans k1, h2.trans k2, h3.trans k3⟩

theorem run_sameInput (G : Glm) (p0 : Vec2) (u0 : UniformData) (frames : List (List Event)) :
    ((Application.ctor G p0 u0).run G frames).sameInput
      ((Application.ctor G p0 u0).handle G frames.flatten) := by
  have h := mainLoop_sameInput G frames _ _ (setup_fields G p0 u0).2.2.2
  exact ⟨h.1, h.2.1, h.2.2⟩

theorem run_presented (G : Glm) (p0 : Vec2) (u0 : UniformData) (frames : List (List Event)) :
    ((Application.ctor G p0 u0).run G frames).presented =
      (List.range frames.length).map (fun k =>
        some (uniformOf u0.model
          ((Application.ctor G p0 u0).handle G (frames.take k).flatten).camera)) := by
  obtain ⟨h1, h2, h3, h4⟩ := setup_fields G p0 u0
  show (Application.mainLoop G (Application.ctor G p0 u0).setup frames).presented = _
  rw [mainLoop_presented G frames _ h1 (by rw [h2]; rfl), h3, List.nil_append]
  apply List.map_congr_left
  intro k _
  rw [(handle_sameInput G (List.take k frames).flatten _ _ h4).2.2, h2]
  rfl

theorem afterSetup_run_trace (G : Glm) (p0 : Vec2) (u0 : UniformData)
    (frames : List (List Event)) :
    afterSetup ((Application.ctor G p0 u0).run G frames).trace =
      loopCalls frames ++ [Call.waitIdle] := by
  rw [run_trace]
  unfold afterSetup
  rw [List.dropWhile_append, if_neg (by decide)]
  have h : List.dropWhile (fun c => decide (c ≠ Call.initDrawCommandBuffers)) setupCalls =
      [Call.initDrawCommandBuffers] := by decide
  rw [h]
  rfl

/-- C9: in both samples, whatever std::exception escapes run, main writes its
what() message and a line end to std::cerr and returns EXIT_FAILURE, which is not
zero; when run completes main writes nothing and returns EXIT_SUCCESS, which is
zero; so the returned status is zero exactly when run completed. -/
theorem main_status :
    (∀ e : StdException,
      GltfScene.main (Except.error e) = { cerr := e.what ++ "\n", status := EXIT_FAILURE } ∧
      (GltfScene.main (Except.error e)).status ≠ 0 ∧
      HelloTriangle.main (Except.error e) = { cerr := e.what ++ "\n", status := EXIT_FAILURE } ∧
      (HelloTriangle.main (Except.error e)).status ≠ 0) ∧
    GltfScene.main (Except.ok ()) = { cerr := "", status := EXIT_SUCCESS } ∧
    HelloTriangle.main (Except.ok ()) = { cerr := "", status := EXIT_SUCCESS } ∧
    EXIT_SUCCESS = 0 ∧
    (∀ run : Except StdException Unit,
      ((GltfScene.main run).status = 0 ↔ run = Except.ok ()) ∧
      ((HelloTriangle.main run).status = 0 ↔ run = Except.ok ())) := by
  have hne : EXIT_FAILURE ≠ 0 := by decide
  refine ⟨fun e => ⟨rfl, hne, rfl, hne⟩, rfl, rfl, rfl, fun run => ?_⟩
  cases run with
  | error e =>
    constructor
    · constructor
      · intro h; exact absurd h hne
      · intro h; cases h
    · constructor
      · intro h; exact absurd h hne
      · intro h; cases h
  | ok u =>
    cases u
    exact ⟨⟨fun _ => rfl, fun _ => rfl⟩, ⟨fun _ => rfl, fun _ => rfl⟩⟩

end Vkray
